import Mathlib

/-!
Shallow embedding of the PixelPress adaptive size-targeting compression
engine (src/lib/compressor.ts, src/lib/encoder.ts, src/lib/cache.ts,
src/lib/config.ts, src/app/api/compress/route.ts and
src/app/api/compress/optimized-route.ts) together with theorems checking
the natural-language specification against it.

Modelling conventions:
- Encoded byte buffers are abstracted to their byte length (a natural
  number); the only use the engine makes of a buffer is `result.length`,
  and the invariant that the recorded size of a trial equals its buffer length
  is therefore built into the embedding.
- The black-box Encoder (sharp) is a parameter `enc : Nat -> Scale -> Option Nat`
  mapping a quality and a uniform scale factor (represented in tenths) to the
  length of the encoded output, `none` modelling a thrown encode error.  This matches the
  signature `encode(buffer, quality, format, scaleFactor = 1)` of
  src/lib/encoder.ts for one fixed input buffer and output format.
- Mutable per-job state (`this.memoryUsage`, the `Date.now()` reads inside
  `checkTimeout`, and the sequence of Encoder invocations) is threaded
  explicitly through an `EngState` record.  Wall-clock time is an oracle
  `tmo : Nat -> Bool` giving the outcome of the n-th `checkTimeout` call.
- `Promise.all` fan-outs are modelled left to right; no claim below
  depends on the completion order of a batch.
-/

/-- One successful quality probe: src/lib/types.ts QualityTestResult with
the buffer abstracted to its length (`size` is exactly the buffer length). -/
structure QualityTestResult where
  quality : Nat
  size : Nat
deriving DecidableEq, Repr

/-- JS `Math.abs(size - target)` on natural quantities. -/
def sizeDiff (target s : Nat) : Nat := Nat.dist s target

/-- The reducer body shared by every best-of-batch selection in
src/lib/compressor.ts (lines 141-145, 182-186, 242-246, 267-271) and its
duplicates in optimized-route.ts: keep `current` only when its distance to
target is strictly smaller than that of the held best. -/
def pickBetterBy {α : Type} (sz : α → Nat) (target : Nat) (best current : α) : α :=
  if sizeDiff target (sz current) < sizeDiff target (sz best) then current else best

/-- JS `list.reduce(pickBetterBy)` on a non-empty list `head :: tail`. -/
def reduceBestBy {α : Type} (sz : α → Nat) (target : Nat) (head : α) (tail : List α) : α :=
  tail.foldl (pickBetterBy sz target) head

/-- Best-of-batch selection over quality trials. -/
def reduceBest (target : Nat) (head : QualityTestResult) (tail : List QualityTestResult) :
    QualityTestResult :=
  reduceBestBy (fun r => r.size) target head tail

/-- Scale factors are represented in tenths of the original linear size:
10 stands for the default scale factor 1, 9 for 0.9, down to 3 for 0.3.
The engine never computes with a scale factor; it only passes the
candidate values 0.9 .. 0.3 (or the default 1) along and copies them into
results, so any representation injective on these eight values embeds the
source faithfully, and tenths keep every comparison kernel-computable. -/
abbrev Scale : Type := Nat

/-- Tenths representation of the default scale factor 1 of
src/lib/encoder.ts encode. -/
def fullScale : Scale := 10

/-- External Encoder oracle: quality and scale factor to encoded length,
`none` when the encode call throws. -/
def Encoder : Type := Nat → Scale → Option Nat

/-- Explicit per-job mutable state: `mem` is `this.memoryUsage`, `tcks`
counts `checkTimeout` calls (indexing the time oracle), `calls` is the
ordered list of Encoder invocations as (quality, scaleFactor) pairs. -/
structure EngState where
  mem : Nat
  tcks : Nat
  calls : List (Nat × Scale)
deriving DecidableEq, Repr

/-- The empty starting state of a job. -/
def EngState.init : EngState := ⟨0, 0, []⟩

/-- src/lib/compressor.ts checkTimeout (line 337): reads the clock (one
oracle consultation) and reports whether the wall-time budget is spent. -/
def checkTimeout (tmo : Nat → Bool) (s : EngState) : Bool × EngState :=
  (tmo s.tcks, { s with tcks := s.tcks + 1 })

/-- src/lib/compressor.ts isWithinTolerance (line 323). -/
def isWithinTolerance (target tol size : Nat) : Bool := sizeDiff target size ≤ tol

/-- src/lib/compressor.ts isExactMatch (line 330). -/
def isExactMatch (target size : Nat) : Bool := size == target

/-- One closure of the `testQualities.map` in parallelQualityTest
(src/lib/compressor.ts lines 112-125): encode at the given quality with
the DEFAULT scale factor argument, then trackMemory (lines 344-349:
increment `memoryUsage` by the buffer length, throw once it exceeds the
ceiling); any thrown error is caught and the closure yields null. -/
def qualityProbe (enc : Encoder) (memLimit : Nat) (q : Nat) (scale : Scale) (s : EngState) :
    Option QualityTestResult × EngState :=
  let s1 : EngState := { s with calls := s.calls ++ [(q, scale)] }
  match enc q scale with
  | none => (none, s1)
  | some size =>
    let s2 : EngState := { s1 with mem := s1.mem + size }
    if memLimit < s2.mem then (none, s2) else (some ⟨q, size⟩, s2)

/-- src/lib/compressor.ts parallelQualityTest (lines 104-129): probe every
quality (each Encoder call made with scale factor 1, since the code passes
only three arguments to encode and scaleFactor defaults to 1), drop the
failed probes. -/
def parallelQualityTest (enc : Encoder) (memLimit : Nat) :
    List Nat → EngState → List QualityTestResult × EngState
  | [], s => ([], s)
  | q :: rest, s =>
    let p := qualityProbe enc memLimit q fullScale s
    let r := parallelQualityTest enc memLimit rest p.2
    ((match p.1 with | none => r.1 | some t => t :: r.1), r.2)

/-- Claim C2 counterexample trials: equal distance 5 to target 100,
qualities 60 and 70. -/
def c2head : QualityTestResult := ⟨60, 105⟩

/-- Second trial of the C2 counterexample batch. -/
def c2tail : List QualityTestResult := [⟨70, 95⟩]

/-- The probe batch of one Phase-2 step (src/lib/compressor.ts line 176):
mid plus/minus one, rounded (identity on integers) and clamped to [1,100]
by filtering.  Natural subtraction sends mid-1 to 0 when mid = 0, which the
filter removes exactly as JS removes the negative value. -/
def midQualities (low high : Nat) : List Nat :=
  [(low + high) / 2 - 1, (low + high) / 2, (low + high) / 2 + 1].filter
    (fun q => decide (1 ≤ q ∧ q ≤ 100))

/-- Smallest quality among a batch of successful trials
(JS `Math.min(...results.map(r => r.quality))`). -/
def minQuality (b : QualityTestResult) (rest : List QualityTestResult) : Nat :=
  (rest.map (fun r => r.quality)).foldl min b.quality

/-- Largest quality among a batch of successful trials
(JS `Math.max(...results.map(r => r.quality))`). -/
def maxQuality (b : QualityTestResult) (rest : List QualityTestResult) : Nat :=
  (rest.map (fun r => r.quality)).foldl max b.quality

/-- Return value of parallelBinarySearch: the chosen trial and the
iteration counter (which the source seeds with the Phase-1 trial count). -/
structure SearchOut where
  best : QualityTestResult
  iterations : Nat
deriving DecidableEq, Repr

/-- The while loop of parallelBinarySearch (src/lib/compressor.ts lines
172-207).  The loop guard is `low <= high && iterations < maxIter &&
!checkTimeout()` with JS short-circuiting, so the clock is only consulted
when the first two conjuncts hold.  Each executed iteration adds at least
one to `iterations` (the batch is non-empty past the break), so starting
the fuel at `maxIter` preserves `maxIter <= fuel + iterations`; when fuel
reaches zero the guard `iterations < maxIter` is false as well and the
returned value coincides with the normal exit of the source loop. -/
def pbsLoop (enc : Encoder) (memLimit target tol maxIter : Nat) (tmo : Nat → Bool) :
    Nat → Nat → Nat → Nat → QualityTestResult → EngState → SearchOut × EngState
  | 0, _low, _high, iterations, currentBest, s => (⟨currentBest, iterations⟩, s)
  | fuel + 1, low, high, iterations, currentBest, s =>
    if low ≤ high ∧ iterations < maxIter then
      let t := checkTimeout tmo s
      if t.1 then (⟨currentBest, iterations⟩, t.2)
      else
        let r := parallelQualityTest enc memLimit (midQualities low high) t.2
        match r.1 with
        | [] => (⟨currentBest, iterations⟩, r.2)
        | b :: rest =>
          let batchBest := reduceBest target b rest
          let newBest := pickBetterBy (fun x => x.size) target currentBest batchBest
          let iterations2 := iterations + (b :: rest).length
          if isWithinTolerance target tol batchBest.size then
            (⟨batchBest, iterations2⟩, r.2)
          else
            if target < batchBest.size then
              pbsLoop enc memLimit target tol maxIter tmo fuel
                low (minQuality b rest - 1) iterations2 newBest r.2
            else
              pbsLoop enc memLimit target tol maxIter tmo fuel
                (maxQuality b rest + 1) high iterations2 newBest r.2
    else (⟨currentBest, iterations⟩, s)

/-- src/lib/compressor.ts parallelBinarySearch (lines 134-211): pick the
best Phase-1 trial, return it at once when it is already within tolerance,
otherwise seed the bounds twenty qualities toward the needed direction and
run the loop with the iteration counter initialised to the Phase-1 trial
count. -/
def parallelBinarySearch (enc : Encoder) (memLimit target tol maxIter : Nat)
    (tmo : Nat → Bool) (r0 : QualityTestResult) (rest : List QualityTestResult)
    (s : EngState) : SearchOut × EngState :=
  let bestResult := reduceBest target r0 rest
  let initLen := (r0 :: rest).length
  if isWithinTolerance target tol bestResult.size then
    (⟨bestResult, initLen⟩, s)
  else
    let lh : Nat × Nat :=
      if target < bestResult.size then (max 1 (bestResult.quality - 20), bestResult.quality)
      else (bestResult.quality, min 100 (bestResult.quality + 20))
    pbsLoop enc memLimit target tol maxIter tmo maxIter lh.1 lh.2 initLen bestResult s

/-- src/lib/types.ts ScalingResult with the buffer abstracted to its length. -/
structure ScalingResult where
  quality : Nat
  size : Nat
  scaleFactor : Scale
  iterations : Nat
deriving DecidableEq, Repr

/-- src/lib/types.ts CompressionMode. -/
inductive CompressionMode
  | exact
  | balanced
deriving DecidableEq, Repr

/-- Scale-factor candidates of progressiveScaling (src/lib/compressor.ts
lines 222-224), depending on the mode, in tenths: 0.9 down to 0.3 for
exact mode, 0.9 down to 0.5 for balanced mode. -/
def scaleFactorsFor : CompressionMode → List Scale
  | .exact => [9, 8, 7, 6, 5, 4, 3]
  | .balanced => [9, 8, 7, 6, 5]

/-- One closure of the `scaleFactors.map` in progressiveScaling
(src/lib/compressor.ts lines 232-257): check the clock, probe the fixed
qualities 70, 80, 90 (parallelQualityTest passes no scale factor to the
Encoder, so these encodes run at scale 1 whatever `scaleFactor` is), and
record the best of the batch together with the CANDIDATE scale factor. -/
def scaleProbe (enc : Encoder) (memLimit target : Nat) (tmo : Nat → Bool)
    (scaleFactor : Scale) (s : EngState) : Option ScalingResult × EngState :=
  let t := checkTimeout tmo s
  if t.1 then (none, t.2)
  else
    let r := parallelQualityTest enc memLimit [70, 80, 90] t.2
    match r.1 with
    | [] => (none, r.2)
    | b :: rest =>
      let best := reduceBest target b rest
      (some ⟨best.quality, best.size, scaleFactor, (b :: rest).length⟩, r.2)

/-- The `scaleFactors.map` fan-out of progressiveScaling, modelled left to
right, keeping the non-null per-scale results. -/
def mapScales (enc : Encoder) (memLimit target : Nat) (tmo : Nat → Bool) :
    List Scale → EngState → List ScalingResult × EngState
  | [], s => ([], s)
  | f :: fs, s =>
    let p := scaleProbe enc memLimit target tmo f s
    let r := mapScales enc memLimit target tmo fs p.2
    ((match p.1 with | none => r.1 | some v => v :: r.1), r.2)

/-- src/lib/compressor.ts progressiveScaling (lines 216-282): run every
candidate scale, throw (modelled as `none`) when no scale produced a
result, otherwise return the across-scales best with the summed iteration
count.  The final within-tolerance test of the source selects between two
branches that return the SAME record, so it does not appear here. -/
def progressiveScaling (enc : Encoder) (memLimit target : Nat) (tmo : Nat → Bool)
    (mode : CompressionMode) (s : EngState) : Option ScalingResult × EngState :=
  let vr := mapScales enc memLimit target tmo (scaleFactorsFor mode) s
  match vr.1 with
  | [] => (none, vr.2)
  | v :: vs =>
    let best := reduceBestBy (fun r : ScalingResult => r.size) target v vs
    let total := (v :: vs).foldl (fun acc r => acc + r.iterations) 0
    (some { best with iterations := total }, vr.2)

/-- src/lib/compressor.ts generateInitialQualities (lines 287-294): four
offsets around the estimated quality, rounded (identity on integers) and
kept only inside [1,100].  Natural subtraction sends negative offsets to
small values below 1 exactly when JS produces values below 1, and the
filter removes both identically for the integer estimates the heuristics
engine produces. -/
def generateInitialQualities (estimatedQuality : Nat) : List Nat :=
  [estimatedQuality - 10, estimatedQuality - 5, estimatedQuality, estimatedQuality + 5].filter
    (fun q => decide (1 ≤ q ∧ q ≤ 100))

/-- src/lib/types.ts CompressionResult restricted to the fields the claims
concern; `size` is exactly the length of the returned buffer. -/
structure CompressionResult where
  quality : Nat
  size : Nat
  exactMatch : Bool
  iterations : Nat
  scaleFactor : Option Scale
deriving DecidableEq, Repr

/-- The only error compress itself raises (src/lib/compressor.ts line 61):
the Phase-3 throw is caught inside compress and the memory-ceiling throw is
caught inside parallelQualityTest, so neither escapes. -/
inductive CompressError
  | initialQualityTestingFailed
deriving DecidableEq, Repr

deriving instance DecidableEq for Except

namespace Compressor

/-- src/lib/compressor.ts ParallelCompressor.compress (lines 43-99): Phase
1 probe (throwing when it yields nothing), Phase 2 binary search with a
tolerance exit, Phase 3 progressive scaling when time remains (its throw is
caught and the binary-search result used), and the best-available fallback.
createResult (lines 299-318) computes exactMatch via isExactMatch on every
path.  The source adds both `initialResults.length` and
`binaryResult.iterations` (which already contains the former) into
`totalIterations`; the model reproduces that double count. -/
def compress (enc : Encoder) (memLimit target tol maxIter : Nat) (tmo : Nat → Bool)
    (mode : CompressionMode) (estimatedQuality : Nat) (s : EngState) :
    Except CompressError CompressionResult × EngState :=
  let ir := parallelQualityTest enc memLimit (generateInitialQualities estimatedQuality) s
  match ir.1 with
  | [] => (.error .initialQualityTestingFailed, ir.2)
  | r :: rest =>
    let bs := parallelBinarySearch enc memLimit target tol maxIter tmo r rest ir.2
    let totalIterations := (r :: rest).length + bs.1.iterations
    if isWithinTolerance target tol bs.1.best.size then
      (.ok ⟨bs.1.best.quality, bs.1.best.size, isExactMatch target bs.1.best.size,
        totalIterations, none⟩, bs.2)
    else
      let t := checkTimeout tmo bs.2
      if t.1 then
        (.ok ⟨bs.1.best.quality, bs.1.best.size, isExactMatch target bs.1.best.size,
          totalIterations, none⟩, t.2)
      else
        let ps := progressiveScaling enc memLimit target tmo mode t.2
        match ps.1 with
        | none =>
          (.ok ⟨bs.1.best.quality, bs.1.best.size, isExactMatch target bs.1.best.size,
            totalIterations, none⟩, ps.2)
        | some sc =>
          let total2 := totalIterations + sc.iterations
          if isWithinTolerance target tol sc.size then
            (.ok ⟨sc.quality, sc.size, isExactMatch target sc.size, total2,
              some sc.scaleFactor⟩, ps.2)
          else
            (.ok ⟨bs.1.best.quality, bs.1.best.size, isExactMatch target bs.1.best.size,
              total2, none⟩, ps.2)

end Compressor

namespace OptimizedRoute

/-- src/app/api/compress/optimized-route.ts ParallelCompressor.compress
(lines 417-518).  Its phase bodies duplicate src/lib/compressor.ts line for
line (encodeImage is inlined and the redundant Math.round on the integer
quality lists is dropped), so the shared phase definitions above embed both
files.  The one behavioural difference sits in the best-available fallback
(lines 498-512): exactMatch is the literal `false` there instead of
isExactMatch. -/
def compress (enc : Encoder) (memLimit target tol maxIter : Nat) (tmo : Nat → Bool)
    (mode : CompressionMode) (estimatedQuality : Nat) (s : EngState) :
    Except CompressError CompressionResult × EngState :=
  let ir := parallelQualityTest enc memLimit (generateInitialQualities estimatedQuality) s
  match ir.1 with
  | [] => (.error .initialQualityTestingFailed, ir.2)
  | r :: rest =>
    let bs := parallelBinarySearch enc memLimit target tol maxIter tmo r rest ir.2
    let totalIterations := (r :: rest).length + bs.1.iterations
    if isWithinTolerance target tol bs.1.best.size then
      (.ok ⟨bs.1.best.quality, bs.1.best.size, isExactMatch target bs.1.best.size,
        totalIterations, none⟩, bs.2)
    else
      let t := checkTimeout tmo bs.2
      if t.1 then
        (.ok ⟨bs.1.best.quality, bs.1.best.size, false, totalIterations, none⟩, t.2)
      else
        let ps := progressiveScaling enc memLimit target tmo mode t.2
        match ps.1 with
        | none =>
          (.ok ⟨bs.1.best.quality, bs.1.best.size, false, totalIterations, none⟩, ps.2)
        | some sc =>
          let total2 := totalIterations + sc.iterations
          if isWithinTolerance target tol sc.size then
            (.ok ⟨sc.quality, sc.size, isExactMatch target sc.size, total2,
              some sc.scaleFactor⟩, ps.2)
          else
            (.ok ⟨bs.1.best.quality, bs.1.best.size, false, total2, none⟩, ps.2)

end OptimizedRoute

/-- src/lib/config.ts ADAPTIVE_CONFIG.smallImageThreshold (1 MiB). -/
def smallImageThreshold : Nat := 1024 * 1024

/-- src/lib/config.ts ADAPTIVE_CONFIG.mediumImageThreshold (5 MiB). -/
def mediumImageThreshold : Nat := 5 * 1024 * 1024

/-- src/lib/types.ts ImageMetadata restricted to the fields the heuristics
engine reads. -/
structure ImageMetadata where
  width : Nat
  height : Nat
  size : Nat
  channels : Nat
  hasAlpha : Bool
deriving DecidableEq, Repr

/-- JS Math.round on a rational: round half toward positive infinity. -/
def jsRound (x : Rat) : Int := ⌊x + 1 / 2⌋

/-- AdaptiveHeuristicsEngine.calculateComplexity, identical in the lib
heuristics module bundled in route.ts (lines 679-698) and in
optimized-route.ts (lines 101-116).  `log10` is the external Math.log10,
passed as an oracle like the Encoder.  Each logarithmic term is clamped
above at 1 individually via Math.min; the channel term and the final
weighted sum are NOT clamped. -/
def calculateComplexity (log10 : Rat → Rat) (m : ImageMetadata) : Rat :=
  let pixelCount : Rat := ((m.width * m.height : Nat) : Rat)
  let dimensionComplexity : Rat := min 1 (log10 pixelCount / 7)
  let channelComplexity : Rat := ((m.channels : Rat) + (if m.hasAlpha then 1 else 0)) / 4
  let sizeComplexity : Rat := min 1 (log10 ((m.size : Nat) : Rat) / 8)
  dimensionComplexity * (4 / 10) + channelComplexity * (3 / 10) + sizeComplexity * (3 / 10)

/-- Clamp to the unit interval, as written in the spec formula. -/
def clamp01 (x : Rat) : Rat := min 1 (max 0 x)

/-- Modelled from the spec: the formula the specification states for the
complexity score, namely clamp01 of 0.4 times log10 of the pixel count
over 7, plus 0.3 times the channel count plus alpha over 4, plus 0.3 times
log10 of the byte size over 8, with one clamp applied to the whole sum. -/
def specComplexity (log10 : Rat → Rat) (m : ImageMetadata) : Rat :=
  clamp01 ((4 / 10) * log10 (((m.width * m.height : Nat) : Rat)) / 7
    + (3 / 10) * (((m.channels : Rat) + (if m.hasAlpha then 1 else 0)) / 4)
    + (3 / 10) * log10 (((m.size : Nat) : Rat)) / 8)

/-- AdaptiveHeuristicsEngine.calculateMaxIterations of the lib heuristics
module bundled in route.ts (lines 728-747): a size-tiered base from
ADAPTIVE_CONFIG (5, 8 or 12) scaled by 0.8 plus 0.4 times the complexity,
Math.rounded. -/
def calculateMaxIterations (log10 : Rat → Rat) (m : ImageMetadata) : Int :=
  let complexity := calculateComplexity log10 m
  let base : Rat :=
    if m.size < smallImageThreshold then 5
    else if m.size < mediumImageThreshold then 8
    else 12
  jsRound (base * (8 / 10 + complexity * (4 / 10)))

/-- src/lib/config.ts CACHE_CONFIG.ttl: 24 hours in milliseconds. -/
def cacheTtl : Int := 24 * 60 * 60 * 1000

/-- src/lib/cache.ts CompressionCache state: two maps keyed by the cache
key (abstracted to a natural number), buffers abstracted to their content
identity, plus the hit and miss counters.  Timestamps are JS epoch
milliseconds, modelled as integers. -/
structure CompressionCache where
  cache : Nat → Option Nat
  timestamps : Nat → Option Int
  hitCount : Nat
  missCount : Nat

/-- src/lib/cache.ts delete (lines 43-46): remove the entry and its
timestamp. -/
def CompressionCache.delete (c : CompressionCache) (key : Nat) : CompressionCache :=
  { c with
    cache := fun k => if k = key then none else c.cache k,
    timestamps := fun k => if k = key then none else c.timestamps k }

/-- src/lib/cache.ts isValid (lines 48-50): the age of the entry is strictly
below the TTL. -/
def CompressionCache.isValid (now timestamp : Int) : Bool := now - timestamp < cacheTtl

/-- src/lib/cache.ts set (lines 38-41): unconditional overwrite, stamping
the insertion time. -/
def CompressionCache.set (c : CompressionCache) (now : Int) (key buf : Nat) :
    CompressionCache :=
  { c with
    cache := fun k => if k = key then some buf else c.cache k,
    timestamps := fun k => if k = key then some now else c.timestamps k }

/-- src/lib/cache.ts get (lines 21-36): miss when the key is absent; when
the timestamp is missing, is the JS-falsy 0, or fails isValid, evict the
entry and count a miss; otherwise count a hit and return the buffer. -/
def CompressionCache.get (c : CompressionCache) (now : Int) (key : Nat) :
    Option Nat × CompressionCache :=
  match c.cache key with
  | none => (none, { c with missCount := c.missCount + 1 })
  | some buf =>
    match c.timestamps key with
    | none => (none, { c.delete key with missCount := c.missCount + 1 })
    | some ts =>
      if ts = 0 ∨ ¬(CompressionCache.isValid now ts = true) then
        (none, { c.delete key with missCount := c.missCount + 1 })
      else
        (some buf, { c with hitCount := c.hitCount + 1 })

/-- The request fields the POST validation chain of both route files
inspects. -/
structure ApiRequest where
  hasFile : Bool
  formatSupported : Bool
  typeAllowed : Bool
  fileSize : Nat
deriving DecidableEq, Repr

/-- The response classes the POST handlers produce: 503 busy, 400
validation error, 200 success, 500 internal error. -/
inductive ApiResponse
  | busy
  | badRequest
  | ok
  | internalError
deriving DecidableEq, Repr

/-- MAX_FILE_SIZE, 25 MiB in src/lib/config.ts and both route files. -/
def maxFileSize : Nat := 25 * 1024 * 1024

/-- Observable outcome of one POST request: the response, the counter
after the handler finished, the counter value while the admitted body ran,
whether any Encoder work happened, and how many times the finally block
decremented the counter. -/
structure PostOutcome where
  response : ApiResponse
  activeAfter : Nat
  activeDuring : Nat
  encoderInvoked : Bool
  decrements : Nat
deriving DecidableEq, Repr

/-- src/app/api/compress/optimized-route.ts POST (lines 559-682); the POST
of route.ts (lines 585-656) has the identical admission and validation
shape.  The busy check comes first, the increment of activeJobs comes
before any validation (both are synchronous, with no await between the
check and the increment), validation precedes the cache probe and all
Encoder work, and the finally block decrements exactly once on every
admitted path.  `cacheHit` abstracts the content-hash cache probe and
`jobOk` whether compressor.compress returns or throws. -/
def POST (maxJobs activeJobs : Nat) (req : ApiRequest) (cacheHit jobOk : Bool) : PostOutcome :=
  if maxJobs ≤ activeJobs then ⟨.busy, activeJobs, activeJobs, false, 0⟩
  else
    let during := activeJobs + 1
    if !req.hasFile then ⟨.badRequest, during - 1, during, false, 1⟩
    else if !req.formatSupported then ⟨.badRequest, during - 1, during, false, 1⟩
    else if !req.typeAllowed then ⟨.badRequest, during - 1, during, false, 1⟩
    else if maxFileSize < req.fileSize then ⟨.badRequest, during - 1, during, false, 1⟩
    else if cacheHit then ⟨.ok, during - 1, during, false, 1⟩
    else if jobOk then ⟨.ok, during - 1, during, true, 1⟩
    else ⟨.internalError, during - 1, during, true, 1⟩

/-- A request fails input validation when some check of the POST chain
rejects it. -/
def ApiRequest.invalid (r : ApiRequest) : Prop :=
  r.hasFile = false ∨ r.formatSupported = false ∨ r.typeAllowed = false ∨
    maxFileSize < r.fileSize

/-- Events on the shared activeJobs counter, read off the POST handlers:
`begin` is the saturation check plus increment (adjacent synchronous
statements, so atomic on the event loop), `reject` the saturated path that
leaves the counter alone, `finish` the finally-block decrement that runs
exactly once per admitted job, which is the only way the counter
decreases, hence only from a positive count. -/
inductive JobStep (maxJobs : Nat) : Nat → Nat → Prop
  | begin (a : Nat) : a < maxJobs → JobStep maxJobs a (a + 1)
  | reject (a : Nat) : maxJobs ≤ a → JobStep maxJobs a a
  | finish (a : Nat) : 0 < a → JobStep maxJobs a (a - 1)

/-- Counter values reachable from the module-initial activeJobs = 0 by any
interleaving of request events. -/
inductive ReachableJobs (maxJobs : Nat) : Nat → Prop
  | init : ReachableJobs maxJobs 0
  | step {a b : Nat} : ReachableJobs maxJobs a → JobStep maxJobs a b → ReachableJobs maxJobs b

/-- A scale-sensitive Encoder witnessing claim C1: at the default scale 1
every quality encodes to 500 bytes, at any other scale to 400 bytes, so
the output length visibly records which scale the Encoder was given. -/
def c1enc : Encoder := fun _q sc => if sc = fullScale then some 500 else some 400

/-- An Encoder for claim C3 whose every encode yields a 60-byte buffer,
driving the running memory sum past a 100-byte ceiling on the second
probe of the job. -/
def c3enc : Encoder := fun _q _sc => some 60

/-- An Encoder for claim C4 whose every encode throws. -/
def c4enc : Encoder := fun _q _sc => none

/-- An Encoder for the claim C6 witness: every encode yields exactly the
1000-byte target. -/
def c6enc : Encoder := fun _q _sc => some 1000

/-- A concrete stand-in for Math.log10 agreeing with the exact
mathematical value at the two arguments the C7 scenarios use: 10 to the 8
maps to 8 (as Math.log10 computes exactly) and 1 maps to 0. -/
def log10w : Rat → Rat := fun x => if x = 100000000 then 8 else 0

/-- Claim C7 counterexample metadata: 10000 by 10000 pixels (pixel count
10 to the 8), byte size 10 to the 8, ten channels with alpha. -/
def c7meta : ImageMetadata := ⟨10000, 10000, 100000000, 10, true⟩

/-- Witness metadata for the amended claim C7 and for claim C10: a one by
one pixel, one byte, three channel image without alpha. -/
def c7wmeta : ImageMetadata := ⟨1, 1, 1, 3, false⟩

/-- Witness cache for claim C9: one entry under key 1 with buffer 42
inserted at time 5, zero hit and miss counts. -/
def c9cache : CompressionCache :=
  ⟨fun k => if k = 1 then some 42 else none,
   fun k => if k = 1 then some 5 else none, 0, 0⟩

/-- A clock value exactly one TTL past the insertion time of the claim C9
witness entry, so the age of the entry is no longer strictly below the TTL. -/
def c9now : Int := 5 + cacheTtl

/-- The reducer step yields one of its two arguments. -/
theorem pickBetterBy_eq_or {α : Type} (sz : α → Nat) (target : Nat) (a b : α) :
    pickBetterBy sz target a b = a ∨ pickBetterBy sz target a b = b := by
  unfold pickBetterBy
  by_cases hc : sizeDiff target (sz b) < sizeDiff target (sz a) <;> simp [hc]

/-- The reducer step never increases the distance to target, left argument. -/
theorem pickBetterBy_le_left {α : Type} (sz : α → Nat) (target : Nat) (a b : α) :
    sizeDiff target (sz (pickBetterBy sz target a b)) ≤ sizeDiff target (sz a) := by
  unfold pickBetterBy
  by_cases hc : sizeDiff target (sz b) < sizeDiff target (sz a) <;> simp [hc]
  exact le_of_lt hc

/-- The reducer step never increases the distance to target, right argument. -/
theorem pickBetterBy_le_right {α : Type} (sz : α → Nat) (target : Nat) (a b : α) :
    sizeDiff target (sz (pickBetterBy sz target a b)) ≤ sizeDiff target (sz b) := by
  unfold pickBetterBy
  by_cases hc : sizeDiff target (sz b) < sizeDiff target (sz a) <;> simp [hc]
  exact le_of_not_lt hc

/-- The reduce returns an element of the batch minimising distance to target. -/
theorem reduceBestBy_spec {α : Type} (sz : α → Nat) (target : Nat)
    (head : α) (tail : List α) :
    reduceBestBy sz target head tail ∈ head :: tail ∧
    ∀ x ∈ head :: tail,
      sizeDiff target (sz (reduceBestBy sz target head tail)) ≤ sizeDiff target (sz x) := by
  induction tail generalizing head with
  | nil => simp [reduceBestBy]
  | cons b t ih =>
    have hstep : reduceBestBy sz target head (b :: t) =
        reduceBestBy sz target (pickBetterBy sz target head b) t := rfl
    rcases ih (pickBetterBy sz target head b) with ⟨hmem, hmin⟩
    constructor
    · rw [hstep]
      rcases List.mem_cons.mp hmem with h | h
      · rcases pickBetterBy_eq_or sz target head b with hp | hp
        · rw [hp] at h ⊢
          rw [h]
          exact List.mem_cons_self head (b :: t)
        · rw [hp] at h ⊢
          rw [h]
          exact List.mem_cons_of_mem _ (List.mem_cons_self b t)
      · exact List.mem_cons_of_mem _ (List.mem_cons_of_mem _ h)
    · intro x hx
      rw [hstep]
      rcases List.mem_cons.mp hx with h | h
      · subst h
        exact le_trans (hmin _ (List.mem_cons_self _ t)) (pickBetterBy_le_left sz target x b)
      · rcases List.mem_cons.mp h with h2 | h2
        · subst h2
          exact le_trans (hmin _ (List.mem_cons_self _ t)) (pickBetterBy_le_right sz target head x)
        · exact hmin x (List.mem_cons_of_mem _ h2)

/-- Claim C2 (as stated, refuted): with two trials equidistant from the
target (both at distance 5 from 100), the reduce of src/lib/compressor.ts
keeps the earlier trial, whose quality 60 is NOT the larger of the two, so
the higher-quality trial is not chosen. -/
theorem c2_counterexample :
    sizeDiff 100 c2head.size = sizeDiff 100 (⟨70, 95⟩ : QualityTestResult).size ∧
    reduceBest 100 c2head c2tail = c2head ∧
    (reduceBest 100 c2head c2tail).quality ≠ 70 := by
  refine ⟨rfl, rfl, ?_⟩
  decide

/-- Claim C2 (amended): wherever a best trial is selected, the selection
minimises distance to target, but on equal distance the reducer keeps the
trial it already holds, i.e. the earlier trial of the batch, regardless of
quality: a tied step never replaces the held best, and the reduce result
is a minimiser of distance among the batch. -/
theorem c2_amended_theorem {α : Type} (sz : α → Nat) (target : Nat) :
    (∀ best current : α,
      sizeDiff target (sz current) = sizeDiff target (sz best) →
      pickBetterBy sz target best current = best) ∧
    (∀ (head : α) (tail : List α),
      reduceBestBy sz target head tail ∈ head :: tail ∧
      ∀ x ∈ head :: tail,
        sizeDiff target (sz (reduceBestBy sz target head tail)) ≤ sizeDiff target (sz x)) := by
  refine ⟨?_, reduceBestBy_spec sz target⟩
  intro best current h
  simp [pickBetterBy, h]

/-- Witness for c2_amended_theorem at a concrete batch: the tied step
keeps the held trial, and the reduce result belongs to the batch. -/
theorem c2_amended_witness :
    pickBetterBy (fun r : QualityTestResult => r.size) 100 c2head ⟨70, 95⟩ = c2head ∧
    reduceBestBy (fun r : QualityTestResult => r.size) 100 c2head c2tail ∈ c2head :: c2tail := by
  have h := c2_amended_theorem (fun r : QualityTestResult => r.size) 100
  exact ⟨h.1 c2head ⟨70, 95⟩ (by decide), (h.2 c2head c2tail).1⟩

/-- Claim C1 (code bug): in Phase 3, with a scale-sensitive Encoder that
returns 500 bytes at scale 1 and 400 bytes at every other scale, balanced
mode records scaleFactor 0.9 in its result, yet the result size is the
scale-1 size 500 and every one of the fifteen Encoder invocations of the
phase carried the default scale factor 1: parallelQualityTest passes no
scale factor, so no probe is encoded at the candidate scale it reports. -/
theorem c1_code_bug :
    (progressiveScaling c1enc 1000000000 1000 (fun _ => false) .balanced
        EngState.init).1 = some ⟨70, 500, 9, 15⟩ ∧
    ((progressiveScaling c1enc 1000000000 1000 (fun _ => false) .balanced
        EngState.init).2.calls.all fun c => c.2 == fullScale) = true ∧
    c1enc 70 9 = some 400 := by
  refine ⟨by decide, by decide, by decide⟩

/-- Claim C3 (code bug): with a 100-byte memory ceiling and every encode
producing 60 bytes, the running sum passes the ceiling on the second
Phase-1 probe, yet the throw of trackMemory is caught by the per-trial
catch of parallelQualityTest: the job keeps searching and returns a normal
result, with the final memory sum at 1320 bytes, far past the ceiling.  No
resource error reaches the caller. -/
theorem c3_code_bug :
    (Compressor.compress c3enc 100 1000 0 5 (fun _ => false) .balanced 80
        EngState.init).1 = .ok ⟨70, 60, false, 2, none⟩ ∧
    100 <
      (Compressor.compress c3enc 100 1000 0 5 (fun _ => false) .balanced 80
        EngState.init).2.mem := by
  refine ⟨by decide, by decide⟩

/-- Claim C5 (as stated, refuted): a request with no file sent to a
saturated server receives the busy rejection, not a validation rejection;
and on an idle server the same request transiently drives the active-jobs
counter to 1 before the finally block restores it. -/
theorem c5_counterexample :
    (POST 20 20 ⟨false, true, true, 0⟩ false true).response = .busy ∧
    (POST 20 0 ⟨false, true, true, 0⟩ false true).activeDuring = 1 ∧
    (POST 20 0 ⟨false, true, true, 0⟩ false true).response = .badRequest := by
  decide

/-- When every encode throws, a quality batch yields no successful trial. -/
theorem parallelQualityTest_none (enc : Encoder) (memLimit : Nat)
    (henc : ∀ q sc, enc q sc = none) :
    ∀ (qs : List Nat) (s : EngState), (parallelQualityTest enc memLimit qs s).1 = [] := by
  intro qs
  induction qs with
  | nil => intro s; rfl
  | cons q rest ih =>
    intro s
    simp only [parallelQualityTest, qualityProbe, henc]
    exact ih _

/-- Claim C4 (as stated, refuted): with an Encoder whose every call
throws, the Phase-1 probe batch yields zero successful trials and the job
fails at once with the initial-quality-testing error instead of falling
through to the next phase. -/
theorem c4_counterexample :
    (Compressor.compress c4enc 100 1000 0 5 (fun _ => false) .balanced 80
        EngState.init).1 = .error .initialQualityTestingFailed := by
  decide

/-- Claim C4 (amended): a Phase-2 batch with zero successful trials breaks
out of the search loop, and a Phase 3 that produces no result is caught
with control falling through to the best-effort fallback; but a Phase-1
probe batch with zero successful trials fails the whole job with the
initial-quality-testing error. -/
theorem c4_amended_theorem :
    (∀ (enc : Encoder) (memLimit target tol maxIter : Nat) (tmo : Nat → Bool)
      (mode : CompressionMode) (est : Nat) (s : EngState),
      (∀ q sc, enc q sc = none) →
      (Compressor.compress enc memLimit target tol maxIter tmo mode est s).1 =
        .error .initialQualityTestingFailed) ∧
    (∀ (enc : Encoder) (memLimit target tol maxIter : Nat) (tmo : Nat → Bool)
      (fuel low high iterations : Nat) (currentBest : QualityTestResult) (s : EngState),
      low ≤ high → iterations < maxIter → tmo s.tcks = false →
      (parallelQualityTest enc memLimit (midQualities low high)
        { s with tcks := s.tcks + 1 }).1 = [] →
      pbsLoop enc memLimit target tol maxIter tmo (fuel + 1) low high iterations
          currentBest s =
        (⟨currentBest, iterations⟩,
         (parallelQualityTest enc memLimit (midQualities low high)
           { s with tcks := s.tcks + 1 }).2)) ∧
    (∀ (enc : Encoder) (memLimit target tol maxIter : Nat) (tmo : Nat → Bool)
      (mode : CompressionMode) (est : Nat) (s s1 s2 s4 : EngState)
      (r : QualityTestResult) (rest : List QualityTestResult) (bso : SearchOut),
      parallelQualityTest enc memLimit (generateInitialQualities est) s = (r :: rest, s1) →
      parallelBinarySearch enc memLimit target tol maxIter tmo r rest s1 = (bso, s2) →
      isWithinTolerance target tol bso.best.size = false →
      tmo s2.tcks = false →
      progressiveScaling enc memLimit target tmo mode { s2 with tcks := s2.tcks + 1 } =
        (none, s4) →
      Compressor.compress enc memLimit target tol maxIter tmo mode est s =
        (.ok ⟨bso.best.quality, bso.best.size, isExactMatch target bso.best.size,
          (r :: rest).length + bso.iterations, none⟩, s4)) := by
  refine ⟨?_, ?_, ?_⟩
  · intro enc memLimit target tol maxIter tmo mode est s henc
    have hp := parallelQualityTest_none enc memLimit henc (generateInitialQualities est) s
    simp only [Compressor.compress]
    rw [hp]
  · intro enc memLimit target tol maxIter tmo fuel low high iterations currentBest s
      h1 h2 h3 h4
    simp only [pbsLoop, checkTimeout]
    rw [if_pos ⟨h1, h2⟩]
    simp only [h3, Bool.false_eq_true, if_false]
    rw [h4]
  · intro enc memLimit target tol maxIter tmo mode est s s1 s2 s4 r rest bso
      hpqt hpbs htol htmo hps
    simp only [Compressor.compress, checkTimeout]
    rw [hpqt]
    simp only [hpbs, htol, Bool.false_eq_true, if_false, htmo, hps]

/-- Witness for c4_amended_theorem: the all-throwing Encoder fails the job
from Phase 1; and in the memory-exhausted scenario of claim C3 the Phase-2
loop breaks on its empty batch and the failed Phase 3 falls through to the
best-effort result. -/
theorem c4_amended_witness :
    (Compressor.compress c4enc 100 1000 0 5 (fun _ => false) .balanced 80
        EngState.init).1 = .error .initialQualityTestingFailed ∧
    pbsLoop c3enc 100 1000 0 5 (fun _ => false) 5 70 90 1 ⟨70, 60⟩
        ⟨240, 0, [(70, 10), (75, 10), (80, 10), (85, 10)]⟩ =
      (⟨⟨70, 60⟩, 1⟩,
       ⟨420, 1, [(70, 10), (75, 10), (80, 10), (85, 10), (79, 10), (80, 10), (81, 10)]⟩) ∧
    Compressor.compress c3enc 100 1000 0 5 (fun _ => false) .balanced 80 EngState.init =
      (.ok ⟨70, 60, false, 2, none⟩,
       ⟨1320, 7,
        [(70, 10), (75, 10), (80, 10), (85, 10), (79, 10), (80, 10), (81, 10),
         (70, 10), (80, 10), (90, 10), (70, 10), (80, 10), (90, 10),
         (70, 10), (80, 10), (90, 10), (70, 10), (80, 10), (90, 10),
         (70, 10), (80, 10), (90, 10)]⟩) := by
  refine ⟨c4_amended_theorem.1 c4enc 100 1000 0 5 (fun _ => false) .balanced 80
    EngState.init (fun _ _ => rfl), ?_, ?_⟩
  · exact c4_amended_theorem.2.1 c3enc 100 1000 0 5 (fun _ => false) 4 70 90 1 ⟨70, 60⟩
      ⟨240, 0, [(70, 10), (75, 10), (80, 10), (85, 10)]⟩
      (by decide) (by decide) rfl (by decide)
  · exact c4_amended_theorem.2.2 c3enc 100 1000 0 5 (fun _ => false) .balanced 80
      EngState.init ⟨240, 0, [(70, 10), (75, 10), (80, 10), (85, 10)]⟩
      ⟨420, 1, [(70, 10), (75, 10), (80, 10), (85, 10), (79, 10), (80, 10), (81, 10)]⟩
      ⟨1320, 7,
       [(70, 10), (75, 10), (80, 10), (85, 10), (79, 10), (80, 10), (81, 10),
        (70, 10), (80, 10), (90, 10), (70, 10), (80, 10), (90, 10),
        (70, 10), (80, 10), (90, 10), (70, 10), (80, 10), (90, 10),
        (70, 10), (80, 10), (90, 10)]⟩
      ⟨70, 60⟩ [] ⟨⟨70, 60⟩, 1⟩
      (by decide) (by decide) (by decide) rfl (by decide)

/-- A size equal to the target is always within tolerance, the tolerance
being a natural number. -/
theorem isWithinTolerance_self (target tol : Nat) :
    isWithinTolerance target tol target = true := by
  simp [isWithinTolerance, sizeDiff, Nat.dist_self]

set_option maxHeartbeats 2000000 in
/-- Every ok result of the library engine satisfies the exactMatch
equivalence: createResult computes exactMatch with isExactMatch on every
terminal path. -/
theorem compress_exactMatch_iff (enc : Encoder) (memLimit target tol maxIter : Nat)
    (tmo : Nat → Bool) (mode : CompressionMode) (est : Nat) (s s2 : EngState)
    (res : CompressionResult)
    (h : Compressor.compress enc memLimit target tol maxIter tmo mode est s = (.ok res, s2)) :
    res.exactMatch = true ↔ res.size = target := by
  simp only [Compressor.compress] at h
  set ir := parallelQualityTest enc memLimit (generateInitialQualities est) s with hir
  clear_value ir
  split at h
  · simp at h
  · rename_i r rest heq
    set bs := parallelBinarySearch enc memLimit target tol maxIter tmo r rest ir.2 with hbs
    clear_value bs
    set ct := checkTimeout tmo bs.2 with hct
    clear_value ct
    set ps := progressiveScaling enc memLimit target tmo mode ct.2 with hps
    clear_value ps
    repeat' split at h
    all_goals simp only [Prod.mk.injEq, Except.ok.injEq] at h
    all_goals obtain ⟨h1, _h2⟩ := h
    all_goals subst h1
    all_goals simp [isExactMatch]

set_option maxHeartbeats 2000000 in
/-- Every ok result of the optimized-route engine satisfies the exactMatch
equivalence: its best-effort fallback hardcodes exactMatch to false, but
that path is only reachable when the binary-search result failed the
tolerance test, which a size equal to the target always passes. -/
theorem optCompress_exactMatch_iff (enc : Encoder) (memLimit target tol maxIter : Nat)
    (tmo : Nat → Bool) (mode : CompressionMode) (est : Nat) (s s2 : EngState)
    (res : CompressionResult)
    (h : OptimizedRoute.compress enc memLimit target tol maxIter tmo mode est s =
      (.ok res, s2)) :
    res.exactMatch = true ↔ res.size = target := by
  simp only [OptimizedRoute.compress] at h
  set ir := parallelQualityTest enc memLimit (generateInitialQualities est) s with hir
  clear_value ir
  split at h
  · simp at h
  · rename_i r rest heq
    set bs := parallelBinarySearch enc memLimit target tol maxIter tmo r rest ir.2 with hbs
    clear_value bs
    set ct := checkTimeout tmo bs.2 with hct
    clear_value ct
    set ps := progressiveScaling enc memLimit target tmo mode ct.2 with hps
    clear_value ps
    split at h
    · simp only [Prod.mk.injEq, Except.ok.injEq] at h
      obtain ⟨h1, _h2⟩ := h
      subst h1
      simp [isExactMatch]
    · rename_i hw
      split at h
      · simp only [Prod.mk.injEq, Except.ok.injEq] at h
        obtain ⟨h1, _h2⟩ := h
        subst h1
        dsimp only
        constructor
        · intro hft; simp at hft
        · intro hsz; rw [hsz] at hw; exact absurd (isWithinTolerance_self target tol) hw
      · split at h
        · simp only [Prod.mk.injEq, Except.ok.injEq] at h
          obtain ⟨h1, _h2⟩ := h
          subst h1
          dsimp only
          constructor
          · intro hft; simp at hft
          · intro hsz; rw [hsz] at hw; exact absurd (isWithinTolerance_self target tol) hw
        · split at h
          · simp only [Prod.mk.injEq, Except.ok.injEq] at h
            obtain ⟨h1, _h2⟩ := h
            subst h1
            simp [isExactMatch]
          · simp only [Prod.mk.injEq, Except.ok.injEq] at h
            obtain ⟨h1, _h2⟩ := h
            subst h1
            dsimp only
            constructor
            · intro hft; simp at hft
            · intro hsz; rw [hsz] at hw; exact absurd (isWithinTolerance_self target tol) hw

/-- Claim C6 (confirmed): for every normally returned CompressionResult of
either engine, exactMatch is true exactly when the result size equals the
target: the library engine computes it with isExactMatch on every terminal
path, and the hardcoded false of the optimized-route engine on the best-effort
fallback is unreachable with a size equal to the target, since such a size
always passes the tolerance test guarding that path. -/
theorem c6_theorem (enc : Encoder) (memLimit target tol maxIter : Nat)
    (tmo : Nat → Bool) (mode : CompressionMode) (est : Nat) (s s2 : EngState)
    (res : CompressionResult) :
    (Compressor.compress enc memLimit target tol maxIter tmo mode est s = (.ok res, s2) →
      (res.exactMatch = true ↔ res.size = target)) ∧
    (OptimizedRoute.compress enc memLimit target tol maxIter tmo mode est s = (.ok res, s2) →
      (res.exactMatch = true ↔ res.size = target)) :=
  ⟨fun h => compress_exactMatch_iff enc memLimit target tol maxIter tmo mode est s s2 res h,
   fun h => optCompress_exactMatch_iff enc memLimit target tol maxIter tmo mode est s s2 res h⟩

/-- Witness for c6_theorem on a concrete run: an Encoder hitting the
1000-byte target exactly produces a result with exactMatch true and size
equal to the target. -/
theorem c6_witness :
    ((⟨70, 1000, true, 8, none⟩ : CompressionResult).exactMatch = true ↔
      (⟨70, 1000, true, 8, none⟩ : CompressionResult).size = 1000) := by
  exact (c6_theorem c6enc 1000000000 1000 0 5 (fun _ => false) .balanced 80 EngState.init
    ⟨4000, 0, [(70, 10), (75, 10), (80, 10), (85, 10)]⟩ ⟨70, 1000, true, 8, none⟩).1
    (by decide)

/-- Claim C7 (as stated, refuted): for the 10000 by 10000, ten-channel
alpha-bearing metadata with byte size 10 to the 8, the code computes
complexity 61/40, which lies outside [0,1] and differs from the clamp01
formula of the claim (the code clamps the two logarithmic terms
individually at 1, never clamps the channel term, and never clamps the
final sum). -/
theorem c7_counterexample :
    calculateComplexity log10w c7meta = 61 / 40 ∧
    ¬ calculateComplexity log10w c7meta ≤ 1 ∧
    calculateComplexity log10w c7meta ≠ specComplexity log10w c7meta := by
  have hval : calculateComplexity log10w c7meta = 61 / 40 := by
    unfold calculateComplexity log10w c7meta
    norm_num [min_def]
  have hspec : specComplexity log10w c7meta = 1 := by
    unfold specComplexity clamp01 log10w c7meta
    norm_num [min_def, max_def]
  refine ⟨hval, ?_, ?_⟩
  · rw [hval]; norm_num
  · rw [hval, hspec]; norm_num

/-- Claim C7 (amended): the complexity score is the weighted sum of the
per-term-clamped quantities, with no final clamp; it lies in [0,1] for
every metadata whose logarithmic terms are nonnegative (byte size and
pixel count at least 1) and whose channel count plus alpha flag does not
exceed 4, but can exceed 1 beyond that. -/
theorem c7_amended_theorem (log10 : Rat → Rat) (m : ImageMetadata)
    (hdim : 0 ≤ log10 (((m.width * m.height : Nat) : Rat)))
    (hsize : 0 ≤ log10 ((m.size : Nat) : Rat))
    (hch : m.channels + (if m.hasAlpha then 1 else 0) ≤ 4) :
    0 ≤ calculateComplexity log10 m ∧ calculateComplexity log10 m ≤ 1 := by
  unfold calculateComplexity
  have h1 : (0 : Rat) ≤ min 1 (log10 (((m.width * m.height : Nat) : Rat)) / 7) :=
    le_min (by norm_num) (by positivity)
  have h2 : min 1 (log10 (((m.width * m.height : Nat) : Rat)) / 7) ≤ 1 := min_le_left _ _
  have h3 : (0 : Rat) ≤ min 1 (log10 ((m.size : Nat) : Rat) / 8) :=
    le_min (by norm_num) (by positivity)
  have h4 : min 1 (log10 ((m.size : Nat) : Rat) / 8) ≤ 1 := min_le_left _ _
  have hcq : ((m.channels : Rat) + (if m.hasAlpha then 1 else 0)) ≤ 4 := by
    have hcast : (m.channels : Rat) + (if m.hasAlpha then (1 : Rat) else 0) =
        ((m.channels + (if m.hasAlpha then 1 else 0) : Nat) : Rat) := by
      cases m.hasAlpha
      all_goals simp
    rw [hcast]
    exact_mod_cast hch
  have hc0 : (0 : Rat) ≤ ((m.channels : Rat) + (if m.hasAlpha then 1 else 0)) / 4 := by
    apply div_nonneg _ (by norm_num)
    cases m.hasAlpha
    all_goals simp
    positivity
  have hc1 : ((m.channels : Rat) + (if m.hasAlpha then 1 else 0)) / 4 ≤ 1 := by
    rw [div_le_one (by norm_num)]
    exact hcq
  constructor
  · simp only []
    nlinarith [h1, h3, hc0]
  · simp only []
    nlinarith [h2, h4, hc1, h1, h3, hc0]

/-- Witness for c7_amended_theorem: the one-pixel, one-byte, three-channel
metadata satisfies the hypotheses and its complexity lies in [0,1]. -/
theorem c7_amended_witness :
    0 ≤ calculateComplexity log10w c7wmeta ∧ calculateComplexity log10w c7wmeta ≤ 1 := by
  refine c7_amended_theorem log10w c7wmeta ?_ ?_ ?_
  · norm_num [log10w, c7wmeta]
  · norm_num [log10w, c7wmeta]
  · norm_num [c7wmeta]

/-- Claim C10 (confirmed): whenever the iteration budget is at most the
Phase-1 trial count, the Phase-2 loop body never runs: parallelBinarySearch
returns the best Phase-1 trial with the iteration counter still at the
Phase-1 trial count and the engine state untouched (no further Encoder
calls, no clock reads), because the counter is initialised to the Phase-1
trial count; and the heuristics of a sub-1MiB image whose complexity is
below one quarter produce exactly the rounded budget 4, at most the
Phase-1 batch size. -/
theorem c10_theorem :
    (∀ (enc : Encoder) (memLimit target tol maxIter : Nat) (tmo : Nat → Bool)
      (r0 : QualityTestResult) (rest : List QualityTestResult) (s : EngState),
      maxIter ≤ (r0 :: rest).length →
      parallelBinarySearch enc memLimit target tol maxIter tmo r0 rest s =
        (⟨reduceBest target r0 rest, (r0 :: rest).length⟩, s)) ∧
    (∀ (log10 : Rat → Rat) (m : ImageMetadata),
      m.size < smallImageThreshold →
      0 ≤ calculateComplexity log10 m →
      calculateComplexity log10 m < 1 / 4 →
      calculateMaxIterations log10 m = 4) := by
  constructor
  · intro enc memLimit target tol maxIter tmo r0 rest s h
    unfold parallelBinarySearch
    by_cases hw : isWithinTolerance target tol (reduceBest target r0 rest).size
    · simp [hw]
    · simp only [hw, Bool.false_eq_true, if_false]
      cases maxIter with
      | zero => simp [pbsLoop]
      | succ n =>
        simp only [pbsLoop]
        rw [if_neg]
        intro hand
        exact absurd hand.2 (Nat.not_lt.mpr h)
  · intro log10 m hsmall h0 hlt
    unfold calculateMaxIterations
    rw [if_pos hsmall]
    unfold jsRound
    have hlow : (4 : Rat) ≤ 5 * (8 / 10 + calculateComplexity log10 m * (4 / 10)) + 1 / 2 := by
      nlinarith [h0]
    have hhigh : 5 * (8 / 10 + calculateComplexity log10 m * (4 / 10)) + 1 / 2 < 5 := by
      nlinarith [hlt]
    rw [Int.floor_eq_iff]
    constructor
    · exact_mod_cast hlow
    · push_cast
      exact_mod_cast hhigh

/-- Witness for c10_theorem: with a budget of 1 and one Phase-1 trial the
search returns that trial with the state untouched, and the one-pixel
witness metadata (complexity 9/40, below one quarter, byte size below the
small-image threshold) yields the rounded iteration budget 4. -/
theorem c10_witness :
    parallelBinarySearch c3enc 100 1000 0 1 (fun _ => false) ⟨70, 60⟩ [] EngState.init =
      (⟨⟨70, 60⟩, 1⟩, EngState.init) ∧
    calculateMaxIterations log10w c7wmeta = 4 := by
  constructor
  · exact c10_theorem.1 c3enc 100 1000 0 1 (fun _ => false) ⟨70, 60⟩ [] EngState.init
      (by decide)
  · refine c10_theorem.2 log10w c7wmeta ?_ ?_ ?_
    · norm_num [c7wmeta, smallImageThreshold]
    · norm_num [calculateComplexity, log10w, c7wmeta, min_def]
    · norm_num [calculateComplexity, log10w, c7wmeta, min_def]

/-- Claim C5 (amended): a request that fails input validation is rejected
before any Encoder work with no net change to the counter, but only after
being admitted: the saturation check runs before validation, so at the
ceiling such a request receives the busy rejection, and below the ceiling
the active-jobs counter is transiently incremented around validation and
restored by the finally block. -/
theorem c5_amended_theorem (maxJobs activeJobs : Nat) (req : ApiRequest)
    (cacheHit jobOk : Bool) (hinv : req.invalid) :
    (maxJobs ≤ activeJobs →
      (POST maxJobs activeJobs req cacheHit jobOk).response = .busy) ∧
    (activeJobs < maxJobs →
      (POST maxJobs activeJobs req cacheHit jobOk).response = .badRequest ∧
      (POST maxJobs activeJobs req cacheHit jobOk).encoderInvoked = false ∧
      (POST maxJobs activeJobs req cacheHit jobOk).activeAfter = activeJobs ∧
      (POST maxJobs activeJobs req cacheHit jobOk).activeDuring = activeJobs + 1 ∧
      (POST maxJobs activeJobs req cacheHit jobOk).decrements = 1) := by
  obtain ⟨hf, fs, ta, size⟩ := req
  constructor
  · intro h
    simp [POST, h]
  · intro h
    have hn : ¬ maxJobs ≤ activeJobs := Nat.not_le.mpr h
    unfold POST
    rw [if_neg hn]
    rcases hinv with h1 | h1 | h1 | h1 <;>
      simp only [ApiRequest.invalid] at h1 <;>
      cases hf <;> cases fs <;> cases ta <;>
      simp_all

/-- Witness for c5_amended_theorem: a no-file request on an idle server of
capacity 20 is rejected as a validation error with no Encoder work and no
net counter change. -/
theorem c5_amended_witness :
    (POST 20 0 ⟨false, true, true, 0⟩ false true).response = .badRequest ∧
    (POST 20 0 ⟨false, true, true, 0⟩ false true).encoderInvoked = false ∧
    (POST 20 0 ⟨false, true, true, 0⟩ false true).activeAfter = 0 := by
  have h := (c5_amended_theorem 20 0 ⟨false, true, true, 0⟩ false true
    (Or.inl rfl)).2 (by decide)
  exact ⟨h.1, h.2.1, h.2.2.1⟩

/-- Claim C8 (confirmed): every counter value reachable from 0 under the
admission events stays at or below the ceiling; a request arriving at the
ceiling is rejected busy with the counter untouched (no increment, not
even transiently); and every admitted request decrements exactly once in
its finally block, restoring the counter whether the job succeeds or
throws. -/
theorem c8_theorem (maxJobs : Nat) :
    (∀ a, ReachableJobs maxJobs a → a ≤ maxJobs) ∧
    (∀ (req : ApiRequest) (cacheHit jobOk : Bool),
      (POST maxJobs maxJobs req cacheHit jobOk).response = .busy ∧
      (POST maxJobs maxJobs req cacheHit jobOk).activeDuring = maxJobs ∧
      (POST maxJobs maxJobs req cacheHit jobOk).activeAfter = maxJobs) ∧
    (∀ (activeJobs : Nat) (req : ApiRequest) (cacheHit jobOk : Bool),
      activeJobs < maxJobs →
      (POST maxJobs activeJobs req cacheHit jobOk).decrements = 1 ∧
      (POST maxJobs activeJobs req cacheHit jobOk).activeAfter = activeJobs) := by
  refine ⟨?_, ?_, ?_⟩
  · intro a h
    induction h with
    | init => exact Nat.zero_le _
    | step hr hs ih =>
      cases hs with
      | begin ha => omega
      | reject ha => exact ih
      | finish ha => omega
  · intro req cacheHit jobOk
    simp [POST]
  · intro activeJobs req cacheHit jobOk h
    have hn : ¬ maxJobs ≤ activeJobs := Nat.not_le.mpr h
    unfold POST
    rw [if_neg hn]
    split_ifs <;> simp

/-- Witness for c8_theorem at ceiling 20: the state 1 reached by one
admission is within the ceiling, a request at the full ceiling is busy,
and an admitted request decrements once. -/
theorem c8_witness :
    (1 : Nat) ≤ 20 ∧
    (POST 20 20 ⟨true, true, true, 0⟩ false true).response = .busy ∧
    (POST 20 5 ⟨true, true, true, 0⟩ false true).decrements = 1 := by
  refine ⟨(c8_theorem 20).1 1 ?_, ((c8_theorem 20).2.1 ⟨true, true, true, 0⟩ false true).1,
    ((c8_theorem 20).2.2 5 ⟨true, true, true, 0⟩ false true (by decide)).1⟩
  exact ReachableJobs.step ReachableJobs.init (JobStep.begin 0 (by decide))

/-- Claim C9 (confirmed): get returns a buffer only when the key is
present with a timestamp whose age is strictly below the TTL, and a lookup
of an expired entry returns a miss, evicts both the entry and its
timestamp, and increments the miss counter. -/
theorem c9_theorem (c : CompressionCache) (now : Int) (key : Nat) :
    (∀ buf, (c.get now key).1 = some buf →
      c.cache key = some buf ∧
      ∃ ts, c.timestamps key = some ts ∧ now - ts < cacheTtl) ∧
    (∀ buf ts, c.cache key = some buf → c.timestamps key = some ts →
      ¬ now - ts < cacheTtl →
      (c.get now key).1 = none ∧
      (c.get now key).2.cache key = none ∧
      (c.get now key).2.timestamps key = none ∧
      (c.get now key).2.missCount = c.missCount + 1) := by
  constructor
  · intro buf h
    unfold CompressionCache.get at h
    split at h
    · simp at h
    · rename_i b hb
      split at h
      · simp at h
      · rename_i ts hts
        split at h
        · simp at h
        · rename_i hcond
          dsimp only at h
          rw [Option.some_inj] at h
          subst h
          refine ⟨hb, ts, hts, ?_⟩
          rw [not_or] at hcond
          have hv := hcond.2
          simp [CompressionCache.isValid] at hv
          exact hv
  · intro buf ts hb hts hexp
    unfold CompressionCache.get
    rw [hb, hts]
    dsimp only
    rw [if_pos]
    · refine ⟨rfl, ?_, ?_, rfl⟩
      · simp [CompressionCache.delete]
      · simp [CompressionCache.delete]
    · right
      simp [CompressionCache.isValid]
      exact Int.not_lt.mp hexp

/-- Witness for c9_theorem: the one-entry cache looked up one TTL after
insertion misses, loses the entry and its timestamp, and counts one miss. -/
theorem c9_witness :
    (c9cache.get c9now 1).1 = none ∧
    (c9cache.get c9now 1).2.cache 1 = none ∧
    (c9cache.get c9now 1).2.timestamps 1 = none ∧
    (c9cache.get c9now 1).2.missCount = 1 := by
  have h := (c9_theorem c9cache c9now 1).2 42 5 (by simp [c9cache]) (by simp [c9cache])
    (by simp [c9now])
  exact ⟨h.1, h.2.1, h.2.2.1, h.2.2.2⟩
